import Mathlib

/-!
Verification of the pathkit ink-stroking excerpt
(`modules/pathkit/src/InkStrokeUtils.{h,cpp}`, `PathStrokeUtils.{h,cpp}`).

Scalars are modelled as rationals.  Floating-point finiteness is modelled by
a magnitude bound equal to the largest finite IEEE single-precision value:
a coordinate is "finite" iff its magnitude does not exceed that bound.

The Skia path container (`SkPath`) and the cap/join procedures
(`SkStrokerPriv`) are not part of the excerpt; they are modelled from the
spec where needed (see the doc comments starting "Modelled from the spec").
Everything else is translated directly from the two source files.
-/

namespace PathKit

/-!
### Kernel-computable rational arithmetic

The Batteries implementations of `Rat.add`, `Rat.sub`, `Rat.mul` and
`Rat.inv` are `@[irreducible]`, so concrete terms built from `+`, `*`,
`/` on `ℚ` cannot be evaluated by `decide`.  The embedding therefore uses
the wrappers below, built on `mkRat` (which does reduce); each wrapper is
proved equal to the corresponding field operation in the lemma section.
-/

def qadd (a b : ℚ) : ℚ := mkRat (a.num * b.den + b.num * a.den) (a.den * b.den)

def qneg (a : ℚ) : ℚ := mkRat (-a.num) a.den

def qsub (a b : ℚ) : ℚ := qadd a (qneg b)

def qmul (a b : ℚ) : ℚ := mkRat (a.num * b.num) (a.den * b.den)

def qinv (a : ℚ) : ℚ :=
  if a.num < 0 then mkRat (-(a.den : Int)) a.num.natAbs
  else mkRat (a.den : Int) a.num.natAbs

def qdiv (a b : ℚ) : ℚ := qmul a (qinv b)

def qabs (a : ℚ) : ℚ := if a < 0 then qneg a else a

def qmin (a b : ℚ) : ℚ := if a ≤ b then a else b

def qmax (a b : ℚ) : ℚ := if a ≤ b then b else a

/-- A 2-D point with rational coordinates (models `SkPoint`). -/
structure Pt where
  x : ℚ
  y : ℚ
deriving DecidableEq, Repr

def Pt.add (a b : Pt) : Pt := ⟨qadd a.x b.x, qadd a.y b.y⟩

def Pt.sub (a b : Pt) : Pt := ⟨qsub a.x b.x, qsub a.y b.y⟩

def Pt.neg (a : Pt) : Pt := ⟨qneg a.x, qneg a.y⟩

def Pt.smul (c : ℚ) (a : Pt) : Pt := ⟨qmul c a.x, qmul c a.y⟩

/-- `SkPointPriv::RotateCCW`: `(x, y) ↦ (y, -x)` (90° rotation in the
source's y-down device coordinates). -/
def Pt.rotCCW (a : Pt) : Pt := ⟨a.y, qneg a.x⟩

/-- The inverse rotation of `Pt.rotCCW`. -/
def Pt.rotCW (a : Pt) : Pt := ⟨qneg a.y, a.x⟩

/-- Largest finite IEEE single-precision magnitude, `(2 - 2⁻²³)·2¹²⁷`. -/
def maxFiniteFloat : ℚ := mkRat (((2 : Nat) ^ 128 - 2 ^ 104 : Nat) : Int) 1

/-- A rational models a finite float iff its magnitude is within range. -/
def finiteScalar (q : ℚ) : Bool := decide (qneg maxFiniteFloat ≤ q ∧ q ≤ maxFiniteFloat)

def Pt.finiteB (p : Pt) : Bool := finiteScalar p.x && finiteScalar p.y

/-- Path verbs (spec §3): Move, Line, Quad, Conic, Cubic, Close. -/
inductive Verb
  | move
  | line
  | quad
  | conic
  | cubic
  | close
deriving DecidableEq, Repr

/-- Number of points consumed by each verb (`SkPathPriv::PtsInVerb`). -/
def ptsInVerb : Verb → Nat
  | .move => 1
  | .line => 1
  | .quad => 2
  | .conic => 2
  | .cubic => 3
  | .close => 0

/-- Modelled from the spec: `SkPath` is not part of the excerpt.  Spec §3:
"an ordered sequence of verbs (Move, Line, Quad, Conic, Cubic, Close) each
consuming a fixed count of associated 2D points (conic verbs additionally
carry a scalar weight)". -/
structure Path where
  verbs : List Verb
  pts : List Pt
  weights : List ℚ
deriving DecidableEq, Repr

def Path.empty : Path := ⟨[], [], []⟩

def Path.isEmpty (p : Path) : Bool := p.verbs.isEmpty

def Path.countVerbs (p : Path) : Nat := p.verbs.length

def Path.countPoints (p : Path) : Nat := p.pts.length

/-- `SkPath::getLastPt`: the last point, or the origin when empty. -/
def Path.getLastPt (p : Path) : Pt := p.pts.getLastD ⟨0, 0⟩

def Path.lastVerb (p : Path) : Option Verb := p.verbs.getLast?

/-- Start point of the path's last contour (point of its last Move verb);
origin when there is none. -/
def lastContourStartAux : List Verb → List Pt → Pt → Pt
  | [], _, cur => cur
  | v :: vs, ps, cur =>
      let cur := if v = Verb.move then ps.headD ⟨0, 0⟩ else cur
      lastContourStartAux vs (ps.drop (ptsInVerb v)) cur

def Path.lastContourStart (p : Path) : Pt := lastContourStartAux p.verbs p.pts ⟨0, 0⟩

def Path.moveTo (p : Path) (q : Pt) : Path :=
  ⟨p.verbs ++ [Verb.move], p.pts ++ [q], p.weights⟩

/-- `SkPath::injectMoveToIfNeeded`: an edge verb on an empty path first
moves to the origin; after a Close it re-opens the contour at its start. -/
def Path.injectMoveToIfNeeded (p : Path) : Path :=
  if p.verbs = [] then p.moveTo ⟨0, 0⟩
  else if p.lastVerb = some Verb.close then p.moveTo p.lastContourStart
  else p

def Path.lineTo (p : Path) (q : Pt) : Path :=
  let p := p.injectMoveToIfNeeded
  ⟨p.verbs ++ [Verb.line], p.pts ++ [q], p.weights⟩

def Path.quadTo (p : Path) (c e : Pt) : Path :=
  let p := p.injectMoveToIfNeeded
  ⟨p.verbs ++ [Verb.quad], p.pts ++ [c, e], p.weights⟩

def Path.conicTo (p : Path) (c e : Pt) (w : ℚ) : Path :=
  let p := p.injectMoveToIfNeeded
  ⟨p.verbs ++ [Verb.conic], p.pts ++ [c, e], p.weights ++ [w]⟩

def Path.cubicTo (p : Path) (c1 c2 e : Pt) : Path :=
  let p := p.injectMoveToIfNeeded
  ⟨p.verbs ++ [Verb.cubic], p.pts ++ [c1, c2, e], p.weights⟩

/-- `SkPath::close`: appends a Close verb when a contour is open. -/
def Path.closeP (p : Path) : Path :=
  if p.verbs = [] ∨ p.lastVerb = some Verb.close then p
  else ⟨p.verbs ++ [Verb.close], p.pts, p.weights⟩

/-- `SkPath::addPath` in append mode: concatenate verb/point/weight data. -/
def Path.addPath (p q : Path) : Path :=
  ⟨p.verbs ++ q.verbs, p.pts ++ q.pts, p.weights ++ q.weights⟩

/-- `SkPath::reset` / `SkPath::rewind` (storage reuse is not observable in
the model): the empty path. -/
def Path.reset (_ : Path) : Path := Path.empty

/-- `SkPath::isFinite`: every coordinate is a finite float (spec §3:
"a path's finite predicate holds iff all coordinates are finite floats"). -/
def Path.isFinite (p : Path) : Bool := p.pts.all Pt.finiteB

/-- Axis-aligned rectangle (models `SkRect`). -/
structure Rect where
  left : ℚ
  top : ℚ
  right : ℚ
  bottom : ℚ
deriving DecidableEq, Repr

def Rect.isEmptyR (r : Rect) : Bool := !(decide (r.left < r.right) && decide (r.top < r.bottom))

/-- Modelled from the spec: `SkRect::contains` is not part of the excerpt;
the spec (§3, §8) uses bounds containment.  A rectangle contains another
iff neither is empty and it encloses it on all four sides. -/
def Rect.containsR (r s : Rect) : Bool :=
  !s.isEmptyR && !r.isEmptyR &&
    decide (r.left ≤ s.left) && decide (r.top ≤ s.top) &&
    decide (r.right ≥ s.right) && decide (r.bottom ≥ s.bottom)

/-- `SkPath::getBounds`: bounding box of all control points; the empty
path has the empty rectangle at the origin. -/
def Path.getBounds (p : Path) : Rect :=
  match p.pts with
  | [] => ⟨0, 0, 0, 0⟩
  | q :: qs =>
      qs.foldl (fun r a =>
        ⟨qmin r.left a.x, qmin r.top a.y, qmax r.right a.x, qmax r.bottom a.y⟩)
        ⟨q.x, q.y, q.x, q.y⟩

/-- `inkutils::reversePathTo` loop body: walk the verbs backward,
re-emitting Line/Quad/Conic/Cubic in reverse and stopping at a Move.
`idx` is the index of the first point of the verb just consumed. -/
def reverseGo (self : Path) (ps : List Pt) (ws : List ℚ) :
    List Verb → Int → Int → Path
  | [], _, _ => self
  | v :: rest, idx, widx =>
      let idx := idx - (ptsInVerb v : Int)
      let at_ : Int → Pt := fun i => ps.getD i.toNat ⟨0, 0⟩
      match v with
      | .move => self
      | .line => reverseGo (self.lineTo (at_ idx)) ps ws rest idx widx
      | .quad => reverseGo (self.quadTo (at_ (idx + 1)) (at_ idx)) ps ws rest idx widx
      | .conic =>
          let widx := widx - 1
          reverseGo (self.conicTo (at_ (idx + 1)) (at_ idx) (ws.getD widx.toNat 1)) ps ws rest idx widx
      | .cubic => reverseGo (self.cubicTo (at_ (idx + 2)) (at_ (idx + 1)) (at_ idx)) ps ws rest idx widx
      | .close => reverseGo self ps ws rest idx widx

/-- `inkutils::reversePathTo` (InkStrokeUtils.cpp:34-71): append the last
contour of `path` to `self` in reverse, stopping at the contour's Move. -/
def Path.reversePathTo (self : Path) (path : Path) : Path :=
  if path.isEmpty then self
  else
    reverseGo self path.pts path.weights path.verbs.reverse
      ((path.countPoints : Int) - 1) (path.weights.length : Int)

/-- `SkPaint::Cap` (the three cap styles used by the stroker). -/
inductive Cap
  | butt
  | round
  | square
deriving DecidableEq, Repr

/-- `SkPaint::Join`. -/
inductive Join
  | miter
  | round
  | bevel
deriving DecidableEq, Repr

/-- `utils::StylusPoint` (InkStrokeUtils.h:16-34): a position and a
pressure; equality compares positions only. -/
structure StylusPoint where
  point : Pt
  pressure : ℚ
deriving DecidableEq, Repr

/-- `StylusPoint::operator!=` (InkStrokeUtils.h:31-33): position inequality,
pressure ignored. -/
def StylusPoint.posNe (a b : StylusPoint) : Bool := decide (a.point ≠ b.point)

/-- `SK_ScalarNearlyZero = 1/(1<<12)`. -/
def nearlyZeroTol : ℚ := mkRat 1 4096

/-- Modelled from the spec: `SkPointPriv::EqualsWithinTolerance` is not part
of the excerpt; spec §4.2 step 1 asks whether the new point "is within a
numerical tolerance of the previous point".  Modelled as both coordinate
differences being within the tolerance. -/
def equalsWithinTolerance (a b : Pt) (tol : ℚ) : Bool :=
  decide (qabs (qsub a.x b.x) ≤ tol) && decide (qabs (qsub a.y b.y) ≤ tol)

/-- Modelled from the spec: `SkPoint::setNormalize` is not part of the
excerpt.  Spec §4.1: normal computation "fails (returns false) when
`before == after` (degenerate, zero-length) since a normal is undefined";
so normalization fails exactly for the zero vector.  The success value
keeps the vector's direction; the unit-magnitude rescaling is an
irrational square root, which the rational model leaves out (no verified
property depends on the magnitude of a successfully computed normal). -/
def setNormalize (x y : ℚ) : Option Pt :=
  if x = 0 ∧ y = 0 then none else some ⟨x, y⟩

/-- `inkutils::set_normal_unitnormal` (InkStrokeUtils.cpp:10-20): normalize
the scaled segment vector, rotate it 90°, and scale by the radius.
Returns `(normal, unitNormal)` on success. -/
def set_normal_unitnormal (before after : Pt) (scale radius : ℚ) :
    Option (Pt × Pt) :=
  match setNormalize (qmul (qsub after.x before.x) scale) (qmul (qsub after.y before.y) scale) with
  | none => none
  | some u =>
      let unitNormal := u.rotCCW
      some (Pt.smul radius unitNormal, unitNormal)

/-- Rational stand-in for the conic weight `√2/2` used by round caps and
joins (irrational, so not representable exactly in the model). -/
def roundConicWeight : ℚ := mkRat 181 256

/-- Modelled from the spec: the `SkStrokerPriv` join procedures are not part
of the excerpt.  Spec §4.2/§9: a join procedure takes the prior/next unit
normals, the pivot, the radius, the inverse miter limit and the segment
flags, and "appends whatever extra geometry (miter point, round arc, or
bevel triangle) is needed to `outer` and mirrors degenerate handling into
`inner`"; a miter beyond the limit falls back to bevel (spec glossary). -/
def applyJoiner (join : Join) (outer inner : Path) (beforeUnit pivot afterUnit : Pt)
    (radius invMiterLimit : ℚ) (_prevIsLine _currIsLine : Bool) : Path × Path :=
  let after := Pt.smul radius afterUnit
  let inner := inner.lineTo (pivot.sub after)
  match join with
  | .bevel => (outer.lineTo (pivot.add after), inner)
  | .round =>
      (outer.conicTo (pivot.add (Pt.smul radius (beforeUnit.add afterUnit)))
        (pivot.add after) roundConicWeight, inner)
  | .miter =>
      let dot := qadd (qmul beforeUnit.x afterUnit.x) (qmul beforeUnit.y afterUnit.y)
      if qdiv (qadd 1 dot) 2 < qmul invMiterLimit invMiterLimit then
        (outer.lineTo (pivot.add after), inner)
      else
        ((outer.lineTo (pivot.add (Pt.smul radius (beforeUnit.add afterUnit)))).lineTo
          (pivot.add after), inner)

/-- Modelled from the spec: the `SkStrokerPriv` cap procedures are not part
of the excerpt.  Spec §4.2/§6: Butt caps "draw nothing" beyond the edge
connecting to the reverse side; Round caps draw a semicircular arc (two
conic segments); Square caps extend half a width beyond the end.  The
`otherIsLine` flag mirrors the C++ `otherPath` argument (degenerate-line
information), which the model does not need to inspect. -/
def applyCapper (cap : Cap) (path : Path) (pivot normal stop : Pt)
    (_otherIsLine : Bool) : Path :=
  match cap with
  | .butt => path.lineTo stop
  | .round =>
      let par := normal.rotCW
      ((path.conicTo ((pivot.add normal).add par) (pivot.add par) roundConicWeight).conicTo
        ((pivot.sub normal).add par) stop roundConicWeight)
  | .square =>
      let par := normal.rotCW
      ((path.lineTo ((pivot.add normal).add par)).lineTo ((pivot.sub normal).add par)).lineTo stop

/-- The `InkStroker` state (InkStrokeUtils.cpp:81-155).  The function-pointer
fields `fCapper`/`fJoiner` are represented by the cap/join styles they were
built from (`SkStrokerPriv::CapFactory` returns one fixed procedure per
style, so pointer equality coincides with style equality). -/
structure InkStroker where
  radius : ℚ
  invMiterLimit : ℚ
  resScale : ℚ
  invResScale : ℚ
  invResScaleSquared : ℚ
  firstNormal : Pt
  prevNormal : Pt
  firstUnitNormal : Pt
  prevUnitNormal : Pt
  firstPt : StylusPoint
  prevPt : StylusPoint
  firstOuterPt : Pt
  firstOuterPtIndexInContour : Nat
  segmentCount : Int
  prevIsLine : Bool
  canIgnoreCenter : Bool
  cap : Cap
  join : Join
  inner : Path
  outer : Path
  cusper : Path
  recursionDepth : Nat
  joinCompleted : Bool
deriving DecidableEq, Repr

/-- The `InkStroker` constructor (InkStrokeUtils.cpp:157-198): a miter join
with `miterLimit ≤ 1` degrades to bevel, otherwise the inverse miter limit
is stored; `segmentCount = -1` marks "no contour open". -/
def mkInkStroker (radius miterLimit : ℚ) (cap : Cap) (join : Join)
    (resScale : ℚ) (canIgnoreCenter : Bool) : InkStroker :=
  let invMiterLimit : ℚ :=
    if join = Join.miter ∧ ¬ miterLimit ≤ 1 then qinv miterLimit else 0
  let join := if join = Join.miter ∧ miterLimit ≤ 1 then Join.bevel else join
  { radius := radius
    invMiterLimit := invMiterLimit
    resScale := resScale
    invResScale := qinv (qmul resScale 4)
    invResScaleSquared := qmul (qinv (qmul resScale 4)) (qinv (qmul resScale 4))
    firstNormal := ⟨0, 0⟩
    prevNormal := ⟨0, 0⟩
    firstUnitNormal := ⟨0, 0⟩
    prevUnitNormal := ⟨0, 0⟩
    firstPt := ⟨⟨0, 0⟩, 1⟩
    prevPt := ⟨⟨0, 0⟩, 1⟩
    firstOuterPt := ⟨0, 0⟩
    firstOuterPtIndexInContour := 0
    segmentCount := -1
    prevIsLine := false
    canIgnoreCenter := canIgnoreCenter
    cap := cap
    join := join
    inner := Path.empty
    outer := Path.empty
    cusper := Path.empty
    recursionDepth := 0
    joinCompleted := false }

/-- `InkStroker::preJoinTo` (InkStrokeUtils.cpp:231-262).  Returns `none`
when the segment is aborted (failed normal with a Butt cap); on success
returns the updated stroker and the computed `(normal, unitNormal)`. -/
def InkStroker.preJoinTo (s : InkStroker) (currPt : StylusPoint)
    (currIsLine : Bool) : Option (InkStroker × Pt × Pt) :=
  let prevX := s.prevPt.point.x
  let prevY := s.prevPt.point.y
  let computed? :=
    match set_normal_unitnormal s.prevPt.point currPt.point s.resScale
        (qmul s.radius s.prevPt.pressure) with
    | some nu => some nu
    | none =>
        if s.cap = Cap.butt then none
        else
          -- zero-length segment: square/round caps still draw, with the
          -- canonical upright orientation
          some (⟨qmul s.radius s.prevPt.pressure, 0⟩, ⟨1, 0⟩)
  match computed? with
  | none => none
  | some (normal, unitNormal) =>
      let s :=
        if s.segmentCount = 0 then
          { s with
              firstNormal := normal
              firstUnitNormal := unitNormal
              firstOuterPt := ⟨qadd prevX normal.x, qadd prevY normal.y⟩
              outer := s.outer.moveTo ⟨qadd prevX normal.x, qadd prevY normal.y⟩
              inner := s.inner.moveTo ⟨qsub prevX normal.x, qsub prevY normal.y⟩ }
        else
          let (o, i) := applyJoiner s.join s.outer s.inner s.prevUnitNormal
            s.prevPt.point unitNormal (qmul s.radius s.prevPt.pressure)
            s.invMiterLimit s.prevIsLine currIsLine
          { s with outer := o, inner := i }
      some ({ s with prevIsLine := currIsLine }, normal, unitNormal)

/-- `InkStroker::line_to` (InkStrokeUtils.cpp:264-267). -/
def InkStroker.line_to (s : InkStroker) (currPt : StylusPoint) (normal : Pt) :
    InkStroker :=
  { s with
      outer := s.outer.lineTo ⟨qadd currPt.point.x normal.x, qadd currPt.point.y normal.y⟩
      inner := s.inner.lineTo ⟨qsub currPt.point.x normal.x, qsub currPt.point.y normal.y⟩ }

/-- `InkStroker::postJoinTo` (InkStrokeUtils.cpp:269-276). -/
def InkStroker.postJoinTo (s : InkStroker) (currPt : StylusPoint)
    (normal unitNormal : Pt) : InkStroker :=
  { s with
      joinCompleted := true
      prevPt := currPt
      prevUnitNormal := unitNormal
      prevNormal := normal
      segmentCount := s.segmentCount + 1 }

/-- The body of `InkStroker::lineTo` after the teeny-line guards
(InkStrokeUtils.cpp:218-228): compute the join, extend both offset
contours, update the running state. -/
def InkStroker.lineToBody (s : InkStroker) (currPt : StylusPoint) : InkStroker :=
  match s.preJoinTo currPt true with
  | none => s
  | some (s', _normal, unitNormal) =>
      let curNormal := Pt.smul (qmul s'.radius currPt.pressure) unitNormal
      (s'.line_to currPt curNormal).postJoinTo currPt curNormal unitNormal

/-- The teeny-line test of `InkStroker::lineTo` (InkStrokeUtils.cpp:210-211):
the new point is within `SK_ScalarNearlyZero · fInvResScale` of the
previous one. -/
def InkStroker.teenyLine (s : InkStroker) (currPt : StylusPoint) : Bool :=
  equalsWithinTolerance s.prevPt.point currPt.point (qmul nearlyZeroTol s.invResScale)

/-- The drop guard of `InkStroker::lineTo` (InkStrokeUtils.cpp:212-217). -/
def InkStroker.lineToDrops (s : InkStroker) (currPt : StylusPoint) : Bool :=
  (decide (s.cap = Cap.butt) && s.teenyLine currPt) ||
  (s.teenyLine currPt && (s.joinCompleted || s.prevPt.posNe currPt))

/-- `InkStroker::lineTo` (InkStrokeUtils.cpp:209-229). -/
def InkStroker.lineTo (s : InkStroker) (currPt : StylusPoint) : InkStroker :=
  if s.lineToDrops currPt then s else s.lineToBody currPt

/-- Seal a closed contour (InkStrokeUtils.cpp:283-286): join the last
normal back to the first and close `outer`.  Note the join here is scaled
by `fRadius` alone, not by the pressure. -/
def InkStroker.sealClosed (s : InkStroker) (currIsLine : Bool) : InkStroker :=
  let (o, i) := applyJoiner s.join s.outer s.inner s.prevUnitNormal
    s.prevPt.point s.firstUnitNormal s.radius s.invMiterLimit
    s.prevIsLine currIsLine
  { s with outer := o.closeP, inner := i }

/-- The closed-contour block of `InkStroker::finishContour`
(InkStrokeUtils.cpp:282-301): seal the loop, then either keep the larger
of the two offset contours (ignore-center mode) or append the inner
contour in reverse and close. -/
def InkStroker.finishClosed (s : InkStroker) (currIsLine : Bool) : InkStroker :=
  let t := s.sealClosed currIsLine
  if t.canIgnoreCenter then
    -- keep the larger of the two paths, drop the smaller
    if t.inner.getBounds.containsR t.outer.getBounds then
      { t with outer := t.inner, inner := t.outer }
    else t
  else
    let pt := t.inner.getLastPt
    { t with outer := ((t.outer.moveTo pt).reversePathTo t.inner).closeP }

/-- The open-contour block of `InkStroker::finishContour`
(InkStrokeUtils.cpp:302-313): cap the end, reverse the inner side, cap
the start, close. -/
def InkStroker.finishOpen (s : InkStroker) (currIsLine : Bool) : InkStroker :=
  let pt := s.inner.getLastPt
  let o := applyCapper s.cap s.outer s.prevPt.point s.prevNormal pt currIsLine
  let o := o.reversePathTo s.inner
  let o := applyCapper s.cap o s.firstPt.point s.firstNormal.neg
    s.firstOuterPt s.prevIsLine
  { s with outer := o.closeP }

/-- `InkStroker::finishContour` (InkStrokeUtils.cpp:278-324). -/
def InkStroker.finishContour (s : InkStroker) (closeFlag currIsLine : Bool) :
    InkStroker :=
  let s1 :=
    if 0 < s.segmentCount then
      let s2 := if closeFlag then s.finishClosed currIsLine else s.finishOpen currIsLine
      if !s2.cusper.isEmpty then
        { s2 with outer := s2.outer.addPath s2.cusper, cusper := Path.empty }
      else s2
    else s
  { s1 with
      inner := s1.inner.reset
      segmentCount := -1
      firstOuterPtIndexInContour := s1.outer.countPoints }

/-- A path that ends "open": it has verbs and its last verb is not Close
(so `closeP` will append a Close verb). -/
def Path.endsOpen (p : Path) : Prop :=
  p.verbs ≠ [] ∧ p.lastVerb ≠ some Verb.close

/-- `InkStroker::moveTo` (InkStrokeUtils.cpp:200-207). -/
def InkStroker.moveTo (s : InkStroker) (pt : StylusPoint) : InkStroker :=
  let s := if 0 < s.segmentCount then s.finishContour false false else s
  { s with segmentCount := 0, firstPt := pt, prevPt := pt, joinCompleted := false }

/-- `InkStroker::done` (InkStrokeUtils.cpp:92-95): finalize the open contour
and swap the accumulated outline into the destination (the destination's
prior content disappears into the dying stroker). -/
def InkStroker.done (s : InkStroker) (_dst : Path) (isLine : Bool) : Path :=
  (s.finishContour false isLine).outer

/-- `SkPaint`, restricted to the fields `InkStroke` reads. -/
structure SkPaint where
  strokeWidth : ℚ
  strokeMiter : ℚ
  cap : Cap
  join : Join
deriving DecidableEq, Repr

/-- `utils::InkEndpointType` (InkStrokeUtils.h:36-39). -/
inductive InkEndpointType
  | circle
  | square
deriving DecidableEq, Repr

/-- `inkutils::InkStroke` (InkStrokeUtils.cpp:326-340). -/
structure InkStroke where
  width : ℚ
  miterLimit : ℚ
  cap : Cap
  join : Join
  resScale : ℚ
deriving DecidableEq, Repr

/-- `InkStroke::InkStroke(const SkPaint&)` (InkStrokeUtils.cpp:350-356). -/
def InkStroke.fromPaint (p : SkPaint) : InkStroke :=
  ⟨p.strokeWidth, p.strokeMiter, p.cap, p.join, 1⟩

/-- `InkStroke::strokeInk` (InkStrokeUtils.cpp:358-383): a non-positive
radius returns with the destination untouched; otherwise the point stream
is fed to a fresh stroker (moveTo for the first point, lineTo for the
rest) and `done` swaps the outline into the destination. -/
def InkStroke.strokeInk (st : InkStroke) (pts : List StylusPoint) (dst : Path) :
    Path :=
  let radius := qdiv st.width 2
  if radius ≤ 0 then dst
  else
    let s0 := mkInkStroker radius st.miterLimit st.cap st.join st.resScale false
    match pts with
    | [] => s0.done dst false
    | p :: rest =>
        let s := rest.foldl InkStroker.lineTo (s0.moveTo p)
        -- lastSegment == kLine_Verb exactly when some lineTo iteration ran
        s.done dst (!rest.isEmpty)

/-- `inkutils::StrokeInkWithPaint` (InkStrokeUtils.cpp:385-406).  The input
pointer+count pair is modelled as the list of points it designates.
Returns the success flag together with the destination path. -/
def StrokeInkWithPaint (pts : List StylusPoint) (endpointType : InkEndpointType)
    (paint : SkPaint) (dst : Path) : Bool × Path :=
  if (pts.length : Int) ≤ 0 then (false, dst.reset)
  else
    let stroke := InkStroke.fromPaint paint
    let dst := stroke.strokeInk pts dst
    if !dst.isFinite then (false, dst.reset)
    else (true, dst)

/-- `utils::StrokeOpts` (Base.h:24-33). -/
structure StrokeOpts where
  width : ℚ
  miter_limit : ℚ
  res_scale : ℚ
  join : Join
  cap : Cap
deriving DecidableEq, Repr

/-- `SkStrokeRecSlim::Style` (PathStrokeUtils.cpp:20-25). -/
inductive RecStyle
  | hairline
  | fill
  | stroke
  | strokeAndFill
deriving DecidableEq, Repr

/-- `kStrokeRec_FillStyleWidth = -SK_Scalar1` (PathStrokeUtils.cpp:12). -/
def fillStyleWidth : ℚ := -1

/-- `utils::SkStrokeRecSlim` (PathStrokeUtils.cpp:14-86). -/
structure SkStrokeRecSlim where
  resScale : ℚ
  width : ℚ
  miterLimit : ℚ
  cap : Cap
  join : Join
  strokeAndFill : Bool
deriving DecidableEq, Repr

/-- `SkStrokeRecSlim::init` (PathStrokeUtils.cpp:92-126): the fill style
records the negative sentinel width; stroke-and-fill with width 0 becomes
fill; the unknown default also falls back to fill. -/
def SkStrokeRecSlim.init (opts : StrokeOpts) (style : RecStyle) (resScale : ℚ) :
    SkStrokeRecSlim :=
  let (w, saf) : ℚ × Bool :=
    match style with
    | .fill => (fillStyleWidth, false)
    | .stroke => (opts.width, false)
    | .strokeAndFill =>
        if opts.width = 0 then (fillStyleWidth, false) else (opts.width, true)
    | .hairline => (fillStyleWidth, false)
  { resScale := resScale
    width := w
    miterLimit := opts.miter_limit
    cap := opts.cap
    join := opts.join
    strokeAndFill := saf }

/-- `SkStrokeRecSlim::getStyle` (PathStrokeUtils.cpp:128-136). -/
def SkStrokeRecSlim.getStyle (r : SkStrokeRecSlim) : RecStyle :=
  if r.width < 0 then RecStyle.fill
  else if r.width = 0 then RecStyle.hairline
  else if r.strokeAndFill then RecStyle.strokeAndFill
  else RecStyle.stroke

def SkStrokeRecSlim.isHairlineStyle (r : SkStrokeRecSlim) : Bool :=
  decide (r.getStyle = RecStyle.hairline)

/-- Split a path into its contours as polylines over the control points,
with a closed flag (helper for the modelled `SkStroke::strokePath`). -/
def splitContoursAux : List Verb → List Pt → List Pt → Bool → Bool →
    List (List Pt × Bool)
  | [], _, cur, closed, started =>
      if started then [(cur.reverse, closed)] else []
  | v :: vs, ps, cur, closed, started =>
      let consumed := ps.take (ptsInVerb v)
      let rest := ps.drop (ptsInVerb v)
      match v with
      | .move =>
          let emitted := if started then [(cur.reverse, closed)] else []
          emitted ++ splitContoursAux vs rest consumed.reverse false true
      | .close => splitContoursAux vs rest cur true started
      | _ => splitContoursAux vs rest (consumed.reverse ++ cur) closed started

def Path.splitContours (p : Path) : List (List Pt × Bool) :=
  splitContoursAux p.verbs p.pts [] false false

/-- Modelled from the spec: `SkStroke::strokePath` is not part of the
excerpt.  Spec §4.3 reduces the uniform-width path stroker to "the same
join/cap machinery described in §4.2, applied contour-by-contour across
the (possibly multi-contour) source path"; we model it by running the ink
stroker over each contour's control points at uniform pressure 1, closing
the contour when it carried a Close verb. -/
def skStrokeStrokePath (width miterLimit : ℚ) (cap : Cap) (join : Join)
    (resScale : ℚ) (doFill : Bool) (src : Path) : Path :=
  let radius := qdiv width 2
  if radius ≤ 0 then Path.empty
  else
    src.splitContours.foldl (fun acc cont =>
      match cont with
      | (c, closed) =>
        match c with
        | [] => acc
        | p :: rest =>
            let s0 := mkInkStroker radius miterLimit cap join resScale doFill
            let s := rest.foldl (fun t q => t.lineTo ⟨q, 1⟩) (s0.moveTo ⟨p, 1⟩)
            let isLine := !rest.isEmpty
            let s := if closed then s.finishContour true isLine else s
            acc.addPath ((s.finishContour false isLine).outer)) Path.empty

/-- `SkStrokeRecSlim::applyToPath` (PathStrokeUtils.cpp:138-156): no thick
stroke (`width ≤ 0`) returns `none` (C++ `false`, destination unchanged);
otherwise the stroked result. -/
def SkStrokeRecSlim.applyToPath (r : SkStrokeRecSlim) (src : Path) :
    Option Path :=
  if r.width ≤ 0 then none
  else some (skStrokeStrokePath r.width r.miterLimit r.cap r.join r.resScale
    r.strokeAndFill src)

/-- `utils::StrokePathWithOpts` (PathStrokeUtils.cpp:158-184). -/
def StrokePathWithOpts (src : Path) (opts : StrokeOpts) (dst : Path)
    (resScale : ℚ) : Bool × Path :=
  if !src.isFinite then (false, dst.reset)
  else
    let rec_ := SkStrokeRecSlim.init opts RecStyle.stroke resScale
    let dst :=
      match rec_.applyToPath src with
      | some stroked => stroked
      | none => src
    if !dst.isFinite then (false, dst.reset)
    else (!rec_.isHairlineStyle, dst)

/-! ### Concrete fixtures used by witnesses and counterexamples -/

/-- The single-contour source path `[Move(0,0), Line(1,0), Line(1,1)]`. -/
def srcC6 : Path := ⟨[Verb.move, Verb.line, Verb.line], [⟨0, 0⟩, ⟨1, 0⟩, ⟨1, 1⟩], []⟩

/-- A two-contour path whose last contour is `[Move(0,0), Line(1,0), Line(1,1)]`. -/
def srcC6b : Path :=
  ⟨[Verb.move, Verb.line, Verb.move, Verb.line, Verb.line],
   [⟨9, 9⟩, ⟨8, 8⟩, ⟨0, 0⟩, ⟨1, 0⟩, ⟨1, 1⟩], []⟩

/-- A Butt-cap stroker state with an open contour just started at the
origin (used to exercise the teeny-line guard). -/
def strokerButtC4 : InkStroker :=
  (mkInkStroker 1 4 Cap.butt Join.bevel 1 false).moveTo ⟨⟨0, 0⟩, 1⟩

/-- A Round-cap stroker state with an open contour just started at the
origin. -/
def strokerRoundC4 : InkStroker :=
  (mkInkStroker 1 4 Cap.round Join.bevel 1 false).moveTo ⟨⟨0, 0⟩, 1⟩

/-- A point a teeny distance from the origin. -/
def teenyPt : StylusPoint := ⟨⟨0, mkRat 1 100000⟩, 1⟩

/-- A closed-contour stroker state in ignore-center mode whose inner path's
bounds strictly contain the outer path's bounds (the situation of a
clockwise loop, where the minus-normal offsets form the outside). -/
def strokerSwapC7 : InkStroker :=
  { mkInkStroker 1 4 Cap.butt Join.bevel 1 true with
      segmentCount := 1
      prevPt := ⟨⟨0, 0⟩, 1⟩
      prevUnitNormal := ⟨0, 1⟩
      firstUnitNormal := ⟨0, 1⟩
      outer := (Path.empty.moveTo ⟨0, 0⟩ |>.lineTo ⟨1, 0⟩).lineTo ⟨1, 1⟩
      inner := ((Path.empty.moveTo ⟨-10, -10⟩ |>.lineTo ⟨10, -10⟩).lineTo ⟨10, 10⟩).lineTo ⟨-10, 10⟩ }

/-- A closed-contour stroker state in ignore-center mode whose outer path's
bounds strictly contain the inner path's bounds (the ordinary case). -/
def strokerKeepC8 : InkStroker :=
  { mkInkStroker 1 4 Cap.butt Join.bevel 1 true with
      segmentCount := 1
      prevPt := ⟨⟨0, 0⟩, 1⟩
      prevUnitNormal := ⟨0, 1⟩
      firstUnitNormal := ⟨0, 1⟩
      outer := ((Path.empty.moveTo ⟨-20, -20⟩ |>.lineTo ⟨20, -20⟩).lineTo ⟨20, 20⟩).lineTo ⟨-20, 20⟩
      inner := (Path.empty.moveTo ⟨0, 0⟩ |>.lineTo ⟨1, 0⟩).lineTo ⟨1, 1⟩ }

/-- Stylus points far outside the finite-float range (their stroked offsets
overflow the finiteness bound). -/
def hugePts : List StylusPoint :=
  [⟨⟨mkRat (((2 : Nat) ^ 130 : Nat) : Int) 1, 0⟩, 1⟩,
   ⟨⟨mkRat (((2 : Nat) ^ 130 + 10 : Nat) : Int) 1, 0⟩, 1⟩]

/-- A plain finite paint: width 2, Butt cap, Bevel join. -/
def paintPlain : SkPaint := ⟨2, 4, Cap.butt, Join.bevel⟩

/-- A width-0 paint (stroke radius 0). -/
def paintZeroWidth : SkPaint := ⟨0, 4, Cap.butt, Join.bevel⟩

/-- A width-4 Round-cap/Round-join paint. -/
def paintRound : SkPaint := ⟨4, 4, Cap.round, Join.round⟩

/-- Stroke options with a negative width (fill style). -/
def optsNegWidth : StrokeOpts := ⟨-1, 4, 1, Join.bevel, Cap.butt⟩

/-- Stroke options with width 0 (hairline style). -/
def optsZeroWidth : StrokeOpts := ⟨0, 4, 1, Join.bevel, Cap.butt⟩

/-- Stroke options with a width so large that the stroked offsets of
`srcC6` overflow the finiteness bound. -/
def optsHugeWidth : StrokeOpts := ⟨qmul 4 maxFiniteFloat, 4, 1, Join.bevel, Cap.butt⟩

/-- The intermediate destination of `StrokePathWithOpts` before its final
finiteness check (PathStrokeUtils.cpp:175-177): the stroked outline when
the style is a thick stroke, otherwise a copy of the source. -/
def pathStrokeIntermediate (src : Path) (opts : StrokeOpts) (resScale : ℚ) : Path :=
  match (SkStrokeRecSlim.init opts RecStyle.stroke resScale).applyToPath src with
  | some stroked => stroked
  | none => src

/-! ### Helper lemmas -/

theorem qadd_eq (a b : ℚ) : qadd a b = a + b := by
  unfold qadd
  rw [Rat.mkRat_eq_div]
  have ha : (a.den : ℚ) ≠ 0 := Nat.cast_ne_zero.mpr a.den_nz
  have hb : (b.den : ℚ) ≠ 0 := Nat.cast_ne_zero.mpr b.den_nz
  conv_rhs => rw [← Rat.num_div_den a, ← Rat.num_div_den b]
  rw [div_add_div _ _ ha hb]
  push_cast
  ring_nf

theorem qneg_eq (a : ℚ) : qneg a = -a := by
  unfold qneg
  rw [Rat.mkRat_eq_div]
  push_cast
  rw [neg_div, Rat.num_div_den]

theorem qsub_eq (a b : ℚ) : qsub a b = a - b := by
  unfold qsub
  rw [qadd_eq, qneg_eq, sub_eq_add_neg]

theorem qmul_eq (a b : ℚ) : qmul a b = a * b := by
  unfold qmul
  rw [Rat.mkRat_eq_div]
  conv_rhs => rw [← Rat.num_div_den a, ← Rat.num_div_den b]
  rw [div_mul_div_comm]
  push_cast
  ring_nf

theorem qinv_eq (a : ℚ) : qinv a = a⁻¹ := by
  unfold qinv
  rcases lt_trichotomy a.num 0 with h | h | h
  · rw [if_pos h, Rat.mkRat_eq_div]
    have hcast : (a.num.natAbs : ℚ) = -(a.num : ℚ) := by
      rw [Int.cast_natAbs, abs_of_neg h]
      push_cast
      ring
    rw [hcast]
    push_cast
    rw [div_neg, neg_div, neg_neg]
    conv_rhs => rw [← Rat.num_div_den a]
    rw [inv_div]
  · rw [if_neg (by omega), h]
    have ha : a = 0 := by
      have := Rat.num_div_den a
      rw [h] at this
      simpa using this.symm
    simp [ha]
  · rw [if_neg (by omega), Rat.mkRat_eq_div]
    have hcast : (a.num.natAbs : ℚ) = (a.num : ℚ) := by
      rw [Int.cast_natAbs, abs_of_pos h]
    rw [hcast]
    conv_rhs => rw [← Rat.num_div_den a]
    rw [inv_div]
    push_cast
    rfl

theorem qdiv_eq (a b : ℚ) : qdiv a b = a / b := by
  unfold qdiv
  rw [qmul_eq, qinv_eq, div_eq_mul_inv]

theorem qabs_eq (a : ℚ) : qabs a = |a| := by
  unfold qabs
  by_cases h : a < 0
  · rw [if_pos h, qneg_eq, abs_of_neg h]
  · rw [if_neg h, abs_of_nonneg (not_lt.mp h)]

theorem injectMoveToIfNeeded_of_open (p : Path) (h1 : p.verbs ≠ [])
    (h2 : p.lastVerb ≠ some Verb.close) : p.injectMoveToIfNeeded = p := by
  unfold Path.injectMoveToIfNeeded
  rw [if_neg h1, if_neg h2]

theorem lineTo_endsOpen (p : Path) (q : Pt) : (p.lineTo q).endsOpen := by
  unfold Path.lineTo Path.endsOpen Path.lastVerb
  refine ⟨by simp, ?_⟩
  rw [List.getLast?_concat]
  simp

theorem conicTo_endsOpen (p : Path) (c e : Pt) (w : ℚ) : (p.conicTo c e w).endsOpen := by
  unfold Path.conicTo Path.endsOpen Path.lastVerb
  refine ⟨by simp, ?_⟩
  rw [List.getLast?_concat]
  simp

theorem quadTo_endsOpen (p : Path) (c e : Pt) : (p.quadTo c e).endsOpen := by
  unfold Path.quadTo Path.endsOpen Path.lastVerb
  refine ⟨by simp, ?_⟩
  rw [List.getLast?_concat]
  simp

theorem cubicTo_endsOpen (p : Path) (c1 c2 e : Pt) : (p.cubicTo c1 c2 e).endsOpen := by
  unfold Path.cubicTo Path.endsOpen Path.lastVerb
  refine ⟨by simp, ?_⟩
  rw [List.getLast?_concat]
  simp

theorem moveTo_endsOpen (p : Path) (q : Pt) : (p.moveTo q).endsOpen := by
  unfold Path.moveTo Path.endsOpen Path.lastVerb
  refine ⟨by simp, ?_⟩
  rw [List.getLast?_concat]
  simp

theorem closeP_lastVerb (p : Path) (h : p.endsOpen) :
    p.closeP.lastVerb = some Verb.close := by
  unfold Path.closeP
  rw [if_neg (by push_neg; exact h)]
  unfold Path.lastVerb
  exact List.getLast?_concat _

/-- The outer path returned by a join procedure always ends in an edge
verb (Line or Conic), never in Close. -/
theorem applyJoiner_fst_endsOpen (j : Join) (o i : Path) (bu pv au : Pt)
    (r ml : ℚ) (a b : Bool) :
    (applyJoiner j o i bu pv au r ml a b).1.endsOpen := by
  unfold applyJoiner
  cases j
  · dsimp only
    split
    · exact lineTo_endsOpen _ _
    · exact lineTo_endsOpen _ _
  · exact conicTo_endsOpen _ _ _ _
  · exact lineTo_endsOpen _ _

theorem reverseGo_endsOpen (ps : List Pt) (ws : List ℚ) :
    ∀ (vs : List Verb) (self : Path) (i wj : Int), self.endsOpen →
      (reverseGo self ps ws vs i wj).endsOpen := by
  intro vs
  induction vs with
  | nil => intro self i wj h; exact h
  | cons v rest ih =>
      intro self i wj h
      cases v
      · exact h
      · exact ih _ _ _ (lineTo_endsOpen _ _)
      · exact ih _ _ _ (quadTo_endsOpen _ _ _)
      · exact ih _ _ _ (conicTo_endsOpen _ _ _ _)
      · exact ih _ _ _ (cubicTo_endsOpen _ _ _ _)
      · exact ih _ _ _ h

theorem reversePathTo_endsOpen (self q : Path) (h : self.endsOpen) :
    (self.reversePathTo q).endsOpen := by
  unfold Path.reversePathTo
  split
  · exact h
  · exact reverseGo_endsOpen _ _ _ _ _ _ h

/-- Sealing a closed contour always leaves `outer` ending in a Close verb. -/
theorem sealClosed_outer_lastVerb (s : InkStroker) (l : Bool) :
    (s.sealClosed l).outer.lastVerb = some Verb.close := by
  unfold InkStroker.sealClosed
  exact closeP_lastVerb _ (applyJoiner_fst_endsOpen _ _ _ _ _ _ _ _ _ _)

theorem sealClosed_cusper (s : InkStroker) (l : Bool) :
    (s.sealClosed l).cusper = s.cusper := by
  unfold InkStroker.sealClosed
  rfl

theorem finishClosed_cusper (s : InkStroker) (l : Bool) :
    (s.finishClosed l).cusper = s.cusper := by
  unfold InkStroker.finishClosed
  dsimp only
  split
  · split
    · exact sealClosed_cusper s l
    · exact sealClosed_cusper s l
  · exact sealClosed_cusper s l

/-- With at least one committed segment and no pending cusp geometry, a
closed finalize is the closed-contour block followed by the rewind of the
working state. -/
theorem finishContour_closed_eq (s : InkStroker) (l : Bool)
    (hseg : 0 < s.segmentCount) (hcusp : s.cusper = Path.empty) :
    s.finishContour true l =
      { s.finishClosed l with
          inner := Path.empty
          segmentCount := -1
          firstOuterPtIndexInContour := (s.finishClosed l).outer.countPoints } := by
  unfold InkStroker.finishContour
  rw [if_pos hseg, if_pos rfl]
  rw [if_neg (by rw [finishClosed_cusper, hcusp]; simp [Path.empty, Path.isEmpty])]
  rfl

/-- In ignore-center mode, when the inner bounds do not contain the outer
bounds, the closed-contour block keeps the sealed state unchanged. -/
theorem finishClosed_keepOuter (s : InkStroker) (l : Bool)
    (hic : s.canIgnoreCenter = true)
    (hcont : (s.sealClosed l).inner.getBounds.containsR
      (s.sealClosed l).outer.getBounds = false) :
    s.finishClosed l = s.sealClosed l := by
  unfold InkStroker.finishClosed
  rw [if_pos (show (s.sealClosed l).canIgnoreCenter = true from hic), if_neg (by rw [hcont]; simp)]

theorem preJoinTo_degenerate (s : InkStroker) (p : StylusPoint) (l : Bool)
    (hnb : ¬ s.cap = Cap.butt) (hpe : s.prevPt.point = p.point) :
    ∃ s', s.preJoinTo p l = some (s', ⟨qmul s.radius s.prevPt.pressure, 0⟩, ⟨1, 0⟩)
      ∧ s'.joinCompleted = s.joinCompleted ∧ s'.radius = s.radius := by
  have hz : set_normal_unitnormal s.prevPt.point p.point s.resScale
      (qmul s.radius s.prevPt.pressure) = none := by
    unfold set_normal_unitnormal setNormalize
    rw [hpe]
    simp [qsub_eq, qmul_eq]
  unfold InkStroker.preJoinTo
  rw [hz, if_neg hnb]
  refine ⟨_, rfl, ?_, ?_⟩
  · split
    · rfl
    · rfl
  · split
    · rfl
    · rfl

theorem lineToBody_joinCompleted (s : InkStroker) (p : StylusPoint)
    (hnb : ¬ s.cap = Cap.butt) (hpe : s.prevPt.point = p.point) :
    (s.lineToBody p).joinCompleted = true := by
  obtain ⟨s', heq, -, -⟩ := preJoinTo_degenerate s p true hnb hpe
  unfold InkStroker.lineToBody
  rw [heq]
  rfl

/-! ### Claims -/

/-- C6: `reversePathTo` applied to a destination path and a source path
whose last contour is `[Move(0,0), Line(1,0), Line(1,1)]` appends, in
order, `Line(1,0)` then `Line(0,0)` — the non-move verbs in reverse — and
stops at the contour's Move verb without re-reversing across contour
boundaries (the two-contour source gives the same appended suffix);
applied to an empty source path it appends nothing. -/
theorem C6_theorem (dst : Path) :
    dst.reversePathTo srcC6 = (dst.lineTo ⟨1, 0⟩).lineTo ⟨0, 0⟩
    ∧ dst.reversePathTo srcC6b = (dst.lineTo ⟨1, 0⟩).lineTo ⟨0, 0⟩
    ∧ ∀ d : Path, d.reversePathTo Path.empty = d :=
  ⟨rfl, rfl, fun _ => rfl⟩

/-- C10: `StrokeInkWithPaint` does not depend on its `endpoint_type`
argument — two calls identical except for that value return the same
boolean result and destination path. -/
theorem C10_theorem (pts : List StylusPoint) (e1 e2 : InkEndpointType)
    (paint : SkPaint) (dst : Path) :
    StrokeInkWithPaint pts e1 paint dst = StrokeInkWithPaint pts e2 paint dst := rfl

/-- C1 counterexample: with one point and stroke width 0 (radius 0),
`StrokeInkWithPaint` returns `true`, not the failure the claim states
(the radius guard in `strokeInk` silently skips stroking and the
destination then passes the finiteness check). -/
theorem C1_counterexample :
    qdiv paintZeroWidth.strokeWidth 2 ≤ 0
    ∧ (StrokeInkWithPaint [⟨⟨0, 0⟩, 1⟩] InkEndpointType.circle paintZeroWidth Path.empty).1 = true := by
  decide

/-- C1 (amended): if `point_count ≤ 0` the function resets the destination
and returns false; if `point_count > 0` but the stroke radius (half the
paint's stroke width) is ≤ 0, stroking is skipped with the destination
left unchanged, and the function returns true exactly when the unchanged
destination passes the finiteness check (false with a reset destination
otherwise). -/
theorem C1_theorem (pts : List StylusPoint) (e : InkEndpointType)
    (paint : SkPaint) (dst : Path) :
    ((pts.length : Int) ≤ 0 →
      StrokeInkWithPaint pts e paint dst = (false, Path.empty))
    ∧ (0 < (pts.length : Int) → qdiv paint.strokeWidth 2 ≤ 0 →
      StrokeInkWithPaint pts e paint dst =
        (if dst.isFinite then (true, dst) else (false, Path.empty))) := by
  constructor
  · intro h
    unfold StrokeInkWithPaint
    rw [if_pos h]
    rfl
  · intro hlen hrad
    unfold StrokeInkWithPaint
    rw [if_neg (not_le.mpr hlen)]
    unfold InkStroke.strokeInk
    simp only [InkStroke.fromPaint]
    rw [if_pos hrad]
    by_cases hf : dst.isFinite
    · rw [if_pos hf]
      simp [hf]
    · rw [if_neg hf]
      simp [Bool.not_eq_true] at hf
      simp [hf, Path.reset]

/-- C1 witness: the amended statement evaluated at an empty point list and
at a one-point list with width 0. -/
theorem C1_witness :
    StrokeInkWithPaint [] InkEndpointType.circle paintPlain (Path.empty.moveTo ⟨1, 1⟩)
      = (false, Path.empty)
    ∧ StrokeInkWithPaint [⟨⟨0, 0⟩, 1⟩] InkEndpointType.circle paintZeroWidth Path.empty
      = (true, Path.empty) := by
  constructor
  · exact (C1_theorem [] InkEndpointType.circle paintPlain (Path.empty.moveTo ⟨1, 1⟩)).1 (by decide)
  · have h := (C1_theorem [⟨⟨0, 0⟩, 1⟩] InkEndpointType.circle paintZeroWidth Path.empty).2
      (by decide) (by decide)
    simpa using h

/-- C3 counterexample: stroking a single point with Round cap and Round
join and width 4 produces an *empty* path (and success), not the non-empty
closed dot the claim states — with one point no `lineTo` ever runs, so
`finishContour` finds `fSegmentCount = 0` and emits no geometry at all. -/
theorem C3_counterexample :
    (StrokeInkWithPaint [⟨⟨0, 0⟩, 1⟩] InkEndpointType.circle paintRound Path.empty).2.isEmpty = true
    ∧ (StrokeInkWithPaint [⟨⟨0, 0⟩, 1⟩] InkEndpointType.circle paintRound Path.empty).1 = true := by
  decide

/-- C3 (amended): for every stylus point and stroke width > 0, stroking a
single point (point count = 1) produces an empty destination path and
success, for *every* cap and join style — the Butt-cap half of the claim
holds as stated, and the Round-cap half degenerates to the same empty
result. -/
theorem C3_theorem (p : StylusPoint) (e : InkEndpointType) (paint : SkPaint)
    (dst : Path) (hw : 0 < qdiv paint.strokeWidth 2) :
    StrokeInkWithPaint [p] e paint dst = (true, Path.empty) := by
  unfold StrokeInkWithPaint
  rw [if_neg (by simp : ¬ (([p].length : Int) ≤ 0))]
  unfold InkStroke.strokeInk
  simp only [InkStroke.fromPaint]
  rw [if_neg (not_le.mpr hw)]
  rfl

/-- C3 witness: the amended statement evaluated at the origin with the
Round-cap/Round-join width-4 paint. -/
theorem C3_witness :
    StrokeInkWithPaint [⟨⟨0, 0⟩, 1⟩] InkEndpointType.circle paintRound Path.empty
      = (true, Path.empty) :=
  C3_theorem ⟨⟨0, 0⟩, 1⟩ InkEndpointType.circle paintRound Path.empty (by decide)

/-- C4: for a `lineTo` on an open contour whose new point is within
tolerance `epsilon/(resolutionScale·4)` of the previous point (a teeny
segment): with a Butt cap the segment is always dropped; with a non-Butt
cap it is dropped exactly when the join was already completed or the two
positions differ exactly, and otherwise it is processed normally (and the
processing does change the state, so it is genuinely not a drop). -/
theorem C4_theorem (s : InkStroker) (p : StylusPoint)
    (hopen : 0 ≤ s.segmentCount)
    (htol : s.invResScale = qinv (qmul s.resScale 4))
    (hteeny : equalsWithinTolerance s.prevPt.point p.point
      (qmul nearlyZeroTol (qinv (qmul s.resScale 4))) = true) :
    (s.cap = Cap.butt → s.lineTo p = s)
    ∧ (¬ s.cap = Cap.butt →
        ((s.joinCompleted = true ∨ s.prevPt.point ≠ p.point) → s.lineTo p = s)
        ∧ (s.joinCompleted = false → s.prevPt.point = p.point →
            s.lineTo p = s.lineToBody p ∧ ¬ s.lineTo p = s)) := by
  have hT : s.teenyLine p = true := by
    unfold InkStroker.teenyLine
    rw [htol]
    exact hteeny
  refine ⟨?_, ?_⟩
  · intro hb
    unfold InkStroker.lineTo InkStroker.lineToDrops
    simp [hb, hT]
  · intro hnb
    refine ⟨?_, ?_⟩
    · intro hor
      unfold InkStroker.lineTo InkStroker.lineToDrops StylusPoint.posNe
      rcases hor with hj | hne
      · simp [hj, hT]
      · simp [hT, hne]
    · intro hjc hpe
      have hdrop : s.lineToDrops p = false := by
        unfold InkStroker.lineToDrops StylusPoint.posNe
        simp [hnb, hjc, hpe, hT]
      have hbody : s.lineTo p = s.lineToBody p := by
        unfold InkStroker.lineTo
        rw [hdrop]
        simp
      refine ⟨hbody, ?_⟩
      intro hcontra
      have h1 : (s.lineToBody p).joinCompleted = true :=
        lineToBody_joinCompleted s p hnb hpe
      rw [← hbody, hcontra, hjc] at h1
      exact Bool.false_ne_true h1

/-- C4 witness: a Butt-cap stroker with an open contour drops a teeny
segment (the theorem's hypotheses hold at this input). -/
theorem C4_witness :
    strokerButtC4.lineTo teenyPt = strokerButtC4 :=
  (C4_theorem strokerButtC4 teenyPt (by decide) (by decide) (by decide)).1 rfl

/-- C5: normal computation fails (returns `none`) when the two points are
equal (zero-length segment, undefined normal); in that case `preJoinTo`
aborts the segment for a Butt cap, and for non-Butt caps substitutes the
canonical fallback orientation: unit normal `(1,0)` and scaled normal
`(radius·pressure, 0)`. -/
theorem C5_theorem (before : Pt) (scale radius : ℚ) (s : InkStroker)
    (p : StylusPoint) (l : Bool) (hpe : s.prevPt.point = p.point) :
    set_normal_unitnormal before before scale radius = none
    ∧ (s.cap = Cap.butt → s.preJoinTo p l = none)
    ∧ (¬ s.cap = Cap.butt → ∃ s', s.preJoinTo p l =
        some (s', ⟨qmul s.radius s.prevPt.pressure, 0⟩, ⟨1, 0⟩)) := by
  have hz : set_normal_unitnormal s.prevPt.point p.point s.resScale
      (qmul s.radius s.prevPt.pressure) = none := by
    unfold set_normal_unitnormal setNormalize
    rw [hpe]
    simp [qsub_eq, qmul_eq]
  refine ⟨?_, ?_, ?_⟩
  · unfold set_normal_unitnormal setNormalize
    simp [qsub_eq, qmul_eq]
  · intro hb
    unfold InkStroker.preJoinTo
    rw [hz, if_pos hb]
  · intro hnb
    obtain ⟨s', heq, -, -⟩ := preJoinTo_degenerate s p l hnb hpe
    exact ⟨s', heq⟩

/-- C5 witness: a Round-cap stroker at a zero-length segment receives the
fallback normals; a Butt-cap one aborts. -/
theorem C5_witness :
    set_normal_unitnormal ⟨3, 4⟩ ⟨3, 4⟩ 1 2 = none
    ∧ strokerButtC4.preJoinTo ⟨⟨0, 0⟩, 1⟩ true = none
    ∧ ∃ s', strokerRoundC4.preJoinTo ⟨⟨0, 0⟩, 1⟩ true =
        some (s', ⟨qmul strokerRoundC4.radius strokerRoundC4.prevPt.pressure, 0⟩, ⟨1, 0⟩) :=
  ⟨(C5_theorem ⟨3, 4⟩ 1 2 strokerButtC4 ⟨⟨0, 0⟩, 1⟩ true (by decide)).1,
   (C5_theorem ⟨3, 4⟩ 1 2 strokerButtC4 ⟨⟨0, 0⟩, 1⟩ true (by decide)).2.1 rfl,
   (C5_theorem ⟨3, 4⟩ 1 2 strokerRoundC4 ⟨⟨0, 0⟩, 1⟩ true (by decide)).2.2 (by decide)⟩

/-- C2: both stroking entry points report every outcome as a boolean flag
with a finiteness-valid (possibly empty) destination — the returned path
always satisfies `isFinite` — and whenever the produced geometry fails
the finiteness predicate, the destination is reset to empty and the
function returns false.  (Both entry points are total functions; the C++
code throws no exceptions on any path.) -/
theorem C2_theorem (pts : List StylusPoint) (e : InkEndpointType)
    (paint : SkPaint) (dst : Path) (src : Path) (opts : StrokeOpts)
    (dst2 : Path) (rs : ℚ) :
    (StrokeInkWithPaint pts e paint dst).2.isFinite = true
    ∧ (((InkStroke.fromPaint paint).strokeInk pts dst).isFinite = false →
        StrokeInkWithPaint pts e paint dst = (false, Path.empty))
    ∧ (StrokePathWithOpts src opts dst2 rs).2.isFinite = true
    ∧ (src.isFinite = true → (pathStrokeIntermediate src opts rs).isFinite = false →
        StrokePathWithOpts src opts dst2 rs = (false, Path.empty)) := by
  refine ⟨?_, ?_, ?_, ?_⟩
  · unfold StrokeInkWithPaint
    by_cases h : ((pts.length : Int) ≤ 0)
    · rw [if_pos h]
      rfl
    · rw [if_neg h]
      by_cases hf : ((InkStroke.fromPaint paint).strokeInk pts dst).isFinite
      · simp [hf]
      · simp only [Bool.not_eq_true] at hf
        simp only [hf, Bool.not_false, if_true]
        rfl
  · intro hmid
    unfold StrokeInkWithPaint
    by_cases h : ((pts.length : Int) ≤ 0)
    · rw [if_pos h]
      rfl
    · rw [if_neg h]
      simp [hmid, Path.reset]
  · unfold StrokePathWithOpts
    by_cases h : src.isFinite
    · rw [if_neg (by simp [h])]
      by_cases hf : (pathStrokeIntermediate src opts rs).isFinite
      · unfold pathStrokeIntermediate at hf
        simp only []
        rw [if_neg (by simpa [pathStrokeIntermediate] using hf)]
        simpa [pathStrokeIntermediate] using hf
      · simp only [Bool.not_eq_true] at hf
        unfold pathStrokeIntermediate at hf
        rw [if_pos (by simpa using hf)]
        rfl
    · simp only [Bool.not_eq_true] at h
      rw [if_pos (by simp [h])]
      rfl
  · intro hsrc hmid
    unfold StrokePathWithOpts
    rw [if_neg (by simp [hsrc])]
    unfold pathStrokeIntermediate at hmid
    rw [if_pos (by simpa using hmid)]
    simp [Path.reset]

/-- C2 witness: a stylus stream far outside the float range makes the ink
stroker's intermediate geometry non-finite, and a finite source with an
over-range stroke width does the same for the path stroker; both calls
reset the destination and fail. -/
theorem C2_witness :
    StrokeInkWithPaint hugePts InkEndpointType.circle paintPlain Path.empty
      = (false, Path.empty)
    ∧ StrokePathWithOpts srcC6 optsHugeWidth Path.empty 1 = (false, Path.empty) :=
  ⟨(C2_theorem hugePts InkEndpointType.circle paintPlain Path.empty srcC6
      optsHugeWidth Path.empty 1).2.1 (by decide),
   (C2_theorem hugePts InkEndpointType.circle paintPlain Path.empty srcC6
      optsHugeWidth Path.empty 1).2.2.2 (by decide) (by decide)⟩

/-- C7 counterexample: a closed finalize in ignore-center mode whose inner
bounds contain the outer bounds swaps the paths, so the kept contour (the
old inner) ends in a Line verb, not in Close — the claim's "ends in
Close" fails even though a segment was committed (the inner point count
is still 0 afterwards). -/
theorem C7_counterexample :
    0 < strokerSwapC7.segmentCount
    ∧ (strokerSwapC7.finishContour true false).inner.countPoints = 0
    ∧ ¬ (strokerSwapC7.finishContour true false).outer.lastVerb = some Verb.close := by
  decide

/-- C7 (amended): for a contour finalized as closed after at least one
committed segment, with no pending cusp geometry (the ink stroker never
produces any) and provided the ignore-center containment swap does not
occur (ignore-center inactive, or the inner bounds not containing the
outer bounds), the outline's verb sequence ends in Close; the inner
working path's point count is 0 immediately after finalization. -/
theorem C7_theorem (s : InkStroker) (l : Bool)
    (hseg : 0 < s.segmentCount) (hcusp : s.cusper = Path.empty)
    (hswap : ¬(s.canIgnoreCenter = true ∧
        (s.sealClosed l).inner.getBounds.containsR
          (s.sealClosed l).outer.getBounds = true)) :
    (s.finishContour true l).outer.lastVerb = some Verb.close
    ∧ (s.finishContour true l).inner.countPoints = 0 := by
  have heq := finishContour_closed_eq s l hseg hcusp
  rw [heq]
  refine ⟨?_, rfl⟩
  show (s.finishClosed l).outer.lastVerb = some Verb.close
  by_cases hic : s.canIgnoreCenter = true
  · have hcont : (s.sealClosed l).inner.getBounds.containsR
        (s.sealClosed l).outer.getBounds = false := by
      cases hx : (s.sealClosed l).inner.getBounds.containsR
          (s.sealClosed l).outer.getBounds
      · rfl
      · exact absurd ⟨hic, hx⟩ hswap
    rw [finishClosed_keepOuter s l hic hcont]
    exact sealClosed_outer_lastVerb s l
  · have hbranch : s.finishClosed l =
        { s.sealClosed l with
            outer := (((s.sealClosed l).outer.moveTo
              (s.sealClosed l).inner.getLastPt).reversePathTo
                (s.sealClosed l).inner).closeP } := by
      unfold InkStroker.finishClosed
      rw [if_neg (show ¬ (s.sealClosed l).canIgnoreCenter = true from hic)]
    rw [hbranch]
    exact closeP_lastVerb _ (reversePathTo_endsOpen _ _ (moveTo_endsOpen _ _))

/-- C7 witness: the amended statement at a concrete ignore-center state
whose inner bounds do not contain the outer bounds. -/
theorem C7_witness :
    (strokerKeepC8.finishContour true false).outer.lastVerb = some Verb.close
    ∧ (strokerKeepC8.finishContour true false).inner.countPoints = 0 :=
  C7_theorem strokerKeepC8 false (by decide) (by decide) (by decide)

/-- C8: with ignore-center active and a closed finalize whose inner
bounds are fully (properly) contained within the outer bounds, the inner
contour is discarded entirely: the output is exactly the sealed outer
contour, so the output verb count equals that of the outer contour alone
and the smaller contour is never appended. -/
theorem C8_theorem (s : InkStroker) (l : Bool)
    (hseg : 0 < s.segmentCount) (hic : s.canIgnoreCenter = true)
    (hcusp : s.cusper = Path.empty)
    (hcont : (s.sealClosed l).outer.getBounds.containsR
      (s.sealClosed l).inner.getBounds = true)
    (hrev : (s.sealClosed l).inner.getBounds.containsR
      (s.sealClosed l).outer.getBounds = false) :
    (s.finishContour true l).outer = (s.sealClosed l).outer
    ∧ (s.finishContour true l).outer.countVerbs
        = (s.sealClosed l).outer.countVerbs := by
  have heq := finishContour_closed_eq s l hseg hcusp
  rw [heq]
  have h2 := finishClosed_keepOuter s l hic hrev
  constructor
  · show (s.finishClosed l).outer = _
    rw [h2]
  · show (s.finishClosed l).outer.countVerbs = _
    rw [h2]

/-- C8 witness: the theorem at a concrete state whose outer bounds
properly contain the inner bounds. -/
theorem C8_witness :
    (strokerKeepC8.finishContour true false).outer
      = (strokerKeepC8.sealClosed false).outer :=
  (C8_theorem strokerKeepC8 false (by decide) (by decide) (by decide)
    (by decide) (by decide)).1

/-- C9 counterexample: a negative width is fill style (`width ≤ 0`), the
destination becomes a copy of the source, yet `StrokePathWithOpts`
returns `true` — it reports "no change" (false) only for the hairline
style `width = 0`, because the result is `!isHairlineStyle`. -/
theorem C9_counterexample :
    optsNegWidth.width ≤ 0
    ∧ (StrokePathWithOpts srcC6 optsNegWidth Path.empty 1).1 = true
    ∧ (StrokePathWithOpts srcC6 optsNegWidth Path.empty 1).2 = srcC6 := by
  decide

/-- C9 (amended): for a finite source path, width = 0 (hairline) copies
the source and returns false ("no change"); width < 0 (fill style) also
copies the source but returns *true*; width > 0 produces the stroked
outline and returns true exactly when the result is finite (resetting to
empty and failing otherwise). -/
theorem C9_theorem (src dst : Path) (opts : StrokeOpts) (rs : ℚ)
    (hfin : src.isFinite = true) :
    (opts.width = 0 → StrokePathWithOpts src opts dst rs = (false, src))
    ∧ (opts.width < 0 → StrokePathWithOpts src opts dst rs = (true, src))
    ∧ (0 < opts.width →
        StrokePathWithOpts src opts dst rs =
          (if (skStrokeStrokePath opts.width opts.miter_limit opts.cap
                opts.join rs false src).isFinite
           then (true, skStrokeStrokePath opts.width opts.miter_limit opts.cap
                opts.join rs false src)
           else (false, Path.empty))) := by
  refine ⟨?_, ?_, ?_⟩ <;> intro hw <;>
    unfold StrokePathWithOpts SkStrokeRecSlim.applyToPath
      SkStrokeRecSlim.isHairlineStyle SkStrokeRecSlim.getStyle
      SkStrokeRecSlim.init <;>
    rw [if_neg (by simp [hfin])] <;> dsimp only
  · rw [if_pos (le_of_eq hw)]
    rw [if_neg (by simp [hfin])]
    rw [if_neg (by rw [hw]; exact lt_irrefl 0), if_pos hw]
    rfl
  · rw [if_pos (le_of_lt hw)]
    rw [if_neg (by simp [hfin])]
    rw [if_pos hw]
    rfl
  · rw [if_neg (not_le.mpr hw)]
    dsimp only
    by_cases hs : (skStrokeStrokePath opts.width opts.miter_limit opts.cap
        opts.join rs false src).isFinite
    · rw [if_neg (by simp [hs]), if_pos hs]
      rw [if_neg (not_lt.mpr (le_of_lt hw)), if_neg (ne_of_gt hw)]
      rfl
    · simp only [Bool.not_eq_true] at hs
      rw [if_pos (by simp [hs]), if_neg (by simp [hs])]
      rfl

/-- C9 witness: the amended statement at concrete hairline, fill and
thick-stroke options. -/
theorem C9_witness :
    StrokePathWithOpts srcC6 optsZeroWidth Path.empty 1 = (false, srcC6)
    ∧ StrokePathWithOpts srcC6 optsNegWidth Path.empty 1 = (true, srcC6)
    ∧ (StrokePathWithOpts srcC6 optsHugeWidth Path.empty 1).1 = false := by
  refine ⟨(C9_theorem srcC6 Path.empty optsZeroWidth 1 (by decide)).1 rfl,
    (C9_theorem srcC6 Path.empty optsNegWidth 1 (by decide)).2.1 (by decide), ?_⟩
  have h := (C9_theorem srcC6 Path.empty optsHugeWidth 1 (by decide)).2.2 (by decide)
  rw [h]
  decide

end PathKit
